import Mathlib

/-!
Shallow embedding of the SentinelX request-inspection engine: the risk scoring
model, the content pattern detectors and the sliding-window rate limiter, with
theorems about the properties the specification states for them.

Confidences and risk scores are modelled as rationals; the fixed increments in
the sources (0.2, 0.25, 0.3, 0.4, 0.5, weights 1.5, 1.3, ...) are written as
the corresponding rationals.
-/

namespace SentinelX

/-- The attack-type severity weight of `calculate_risk_score`: the dictionary
`{'sqli': 1.5, 'xss': 1.3, 'path_traversal': 1.4, 'command_injection': 1.6,
'brute_force': 1.1}` looked up with `.get(attack_type, 1.0)`. -/
def type_weights (attack_type : String) : ℚ :=
  if attack_type = "sqli" then 3/2
  else if attack_type = "xss" then 13/10
  else if attack_type = "path_traversal" then 7/5
  else if attack_type = "command_injection" then 8/5
  else if attack_type = "brute_force" then 11/10
  else 1

/-- The frequency multiplier of `calculate_risk_score`:
`min(frequency_data['recent_attacks'] / 10, 2.0)`, with `recent_attacks` the
per-source count of recent attacks (a natural number). -/
def get_frequency_multiplier (recent_attacks : ℕ) : ℚ :=
  min ((recent_attacks : ℚ) / 10) 2

/-- `calculate_risk_score(base_confidence, request_data, attack_type)`.
The external per-source lookups are parameters of the embedding:
`recent_attacks` is `get_attack_frequency(request_data['ip'])['recent_attacks']`,
`complexity_multiplier` is `analyze_complexity(request_data)`, and
`risk_multiplier` is the optional `'risk_multiplier'` entry of
`get_ip_reputation(request_data['ip'])`, read with `.get('risk_multiplier', 1.0)`. -/
def calculate_risk_score (base_confidence : ℚ) (recent_attacks : ℕ)
    (complexity_multiplier : ℚ) (risk_multiplier : Option ℚ)
    (attack_type : String) : ℚ :=
  let base_score := base_confidence * 100
  let frequency_multiplier := get_frequency_multiplier recent_attacks
  let reputation_multiplier := risk_multiplier.getD 1
  let type_weight := type_weights attack_type
  min (base_score * frequency_multiplier * complexity_multiplier *
    reputation_multiplier * type_weight) 100

theorem type_weights_pos (ty : String) : 0 < type_weights ty := by
  unfold type_weights
  split_ifs <;> norm_num

theorem frequency_multiplier_nonneg (n : ℕ) : 0 ≤ get_frequency_multiplier n := by
  unfold get_frequency_multiplier
  positivity

/-- C2: for every base confidence in `[0,1]`, every complexity and reputation
multiplier from its natural domain (nonnegative), every recent-attack count and
every attack type, `calculate_risk_score` equals
`clamp(base_confidence*100 * frequency_multiplier * complexity_multiplier *
reputation_multiplier * type_weight, 0, 100)`, and the result lies in `[0,100]`.
(The code only takes `min(..., 100.0)`; the lower clamp is vacuous because the
product of the nonnegative factors is nonnegative.) -/
theorem calculate_risk_score_clamped (b : ℚ) (n : ℕ) (c : ℚ) (r : Option ℚ)
    (ty : String) (hb0 : 0 ≤ b) (hb1 : b ≤ 1) (hc : 0 ≤ c) (hr : 0 ≤ r.getD 1) :
    calculate_risk_score b n c r ty =
      max 0 (min (b * 100 * get_frequency_multiplier n * c * r.getD 1 *
        type_weights ty) 100) ∧
    0 ≤ calculate_risk_score b n c r ty ∧ calculate_risk_score b n c r ty ≤ 100 := by
  have hprod : 0 ≤ b * 100 * get_frequency_multiplier n * c * r.getD 1 *
      type_weights ty := by
    have h1 := frequency_multiplier_nonneg n
    have h2 := (type_weights_pos ty).le
    positivity
  have hform : calculate_risk_score b n c r ty =
      min (b * 100 * get_frequency_multiplier n * c * r.getD 1 *
        type_weights ty) 100 := rfl
  have hlow : 0 ≤ calculate_risk_score b n c r ty := by
    rw [hform]
    exact le_min hprod (by norm_num)
  refine ⟨?_, hlow, ?_⟩
  · rw [hform, max_eq_right (le_min hprod (by norm_num))]
  · rw [hform]
    exact min_le_right _ _

/-- Witness for `calculate_risk_score_clamped` at a concrete input. -/
theorem calculate_risk_score_clamped_witness :
    calculate_risk_score (1/2) 5 (3/2) (some (6/5)) "xss" =
      max 0 (min ((1/2 : ℚ) * 100 * get_frequency_multiplier 5 * (3/2) *
        (Option.some (6/5)).getD 1 * type_weights "xss") 100) ∧
    0 ≤ calculate_risk_score (1/2) 5 (3/2) (some (6/5)) "xss" ∧
    calculate_risk_score (1/2) 5 (3/2) (some (6/5)) "xss" ≤ 100 :=
  calculate_risk_score_clamped (1/2) 5 (3/2) (some (6/5)) "xss"
    (by norm_num) (by norm_num) (by norm_num) (by norm_num)

/-- C1 counterexample: on a source with zero history (`recent_attacks = 0`, no
reputation data) and base confidence `1/2` for attack type `sqli` with
complexity multiplier `1`, the claim predicts
`clamp(0.5*100 * 1 * 1.5, 0, 100) = 75`, but the code's frequency multiplier is
`min(0/10, 2.0) = 0`, so `calculate_risk_score` returns `0`. -/
theorem calculate_risk_score_zero_history_cex :
    calculate_risk_score (1/2) 0 1 none "sqli" = 0 ∧
    min ((1/2 : ℚ) * 100 * 1 * type_weights "sqli") 100 = 75 ∧
    calculate_risk_score (1/2) 0 1 none "sqli" ≠
      min ((1/2 : ℚ) * 100 * 1 * type_weights "sqli") 100 := by
  have hw : type_weights "sqli" = 3/2 := by simp [type_weights]
  have h0 : calculate_risk_score (1/2) 0 1 none "sqli" = 0 := by
    show min ((1/2 : ℚ) * 100 * get_frequency_multiplier 0 * 1 *
      (Option.getD none 1) * type_weights "sqli") 100 = 0
    rw [hw]
    norm_num [get_frequency_multiplier]
  refine ⟨h0, by rw [hw]; norm_num, ?_⟩
  rw [h0, hw]
  norm_num

/-- C1 amended: the reputation multiplier does default to `1.0` when the
reputation lookup has no `risk_multiplier` entry, but the frequency multiplier
on a zero-history source is `min(0/10, 2.0) = 0`, so `calculate_risk_score`
on a zero-history source returns `0` for every base confidence, every
complexity multiplier and every attack type — content analysis alone never
yields a non-zero score. -/
theorem calculate_risk_score_zero_history (b c : ℚ) (ty : String) :
    calculate_risk_score b 0 c none ty = 0 := by
  show min (b * 100 * get_frequency_multiplier 0 * c *
    (Option.getD none 1) * type_weights ty) 100 = 0
  norm_num [get_frequency_multiplier]

/-- C6: the frequency multiplier `min(recent_attack_count / 10, 2.0)` is
monotone in the recent-attack count and never exceeds `2.0`. -/
theorem frequency_multiplier_monotone_capped (a b : ℕ) (h : a ≤ b) :
    get_frequency_multiplier a ≤ get_frequency_multiplier b ∧
    get_frequency_multiplier b ≤ 2 := by
  constructor
  · unfold get_frequency_multiplier
    apply min_le_min _ le_rfl
    gcongr
  · exact min_le_right _ _

/-- Witness for `frequency_multiplier_monotone_capped` at `3 ≤ 50`. -/
theorem frequency_multiplier_monotone_capped_witness :
    get_frequency_multiplier 3 ≤ get_frequency_multiplier 50 ∧
    get_frequency_multiplier 50 ≤ 2 :=
  frequency_multiplier_monotone_capped 3 50 (by norm_num)

/-- C8 counterexample: the claim says every attack type other than the five it
lists maps to the default weight `1.0`, but the dictionary also contains
`'command_injection': 1.6`. -/
theorem type_weights_cex :
    type_weights "command_injection" = 8/5 ∧ (8/5 : ℚ) ≠ 1 := by
  constructor
  · simp [type_weights]
  · norm_num

/-- C8 amended: the weight table is fixed per attack family — sqli `1.5`,
xss `1.3`, path_traversal `1.4`, command_injection `1.6`, brute_force `1.1` —
and every attack type outside these five entries (in particular `rate_abuse`)
gets the default `1.0`. -/
theorem type_weights_values :
    type_weights "sqli" = 3/2 ∧ type_weights "xss" = 13/10 ∧
    type_weights "path_traversal" = 7/5 ∧ type_weights "command_injection" = 8/5 ∧
    type_weights "brute_force" = 11/10 ∧ type_weights "rate_abuse" = 1 ∧
    (∀ ty : String, ty ≠ "sqli" → ty ≠ "xss" → ty ≠ "path_traversal" →
      ty ≠ "command_injection" → ty ≠ "brute_force" → type_weights ty = 1) := by
  refine ⟨by simp [type_weights], by simp [type_weights],
    by simp [type_weights], by simp [type_weights],
    by simp [type_weights], by simp [type_weights], ?_⟩
  intro ty h1 h2 h3 h4 h5
  unfold type_weights
  split_ifs <;> simp_all

/-- Witness for `type_weights_values`: the default branch at the unknown
attack type `"other"`. -/
theorem type_weights_values_witness : type_weights "other" = 1 :=
  type_weights_values.2.2.2.2.2.2 "other" (by decide) (by decide) (by decide)
    (by decide) (by decide)

/-!
## Rate limiter

`check_rate_limit(ip, window=60, max_requests=100)` keeps, per source, a Redis
sorted set of request timestamps.  One call performs, in order:
`zadd key {now: now}` (insert the current timestamp),
`zremrangebyscore key 0 (now - window)` (drop every timestamp in
`[0, now - window]`), `zcard` (count what remains) and returns
`request_count <= max_requests`.  The per-source sorted set is modelled as a
`Finset ℚ` of timestamps.
-/

/-- The state update of one `check_rate_limit` call: insert the current
timestamp, then remove every stored timestamp in `[0, now - window]`. -/
def rate_step (state : Finset ℚ) (now window : ℚ) : Finset ℚ :=
  (insert now state).filter (fun t => ¬(0 ≤ t ∧ t ≤ now - window))

/-- `check_rate_limit`: returns the allow/deny decision
(`request_count <= max_requests`) together with the updated stored state.
The state update happens unconditionally, before the count is taken. -/
def check_rate_limit (state : Finset ℚ) (now window : ℚ)
    (max_requests : ℕ) : Bool × Finset ℚ :=
  let s := rate_step state now window
  (decide (s.card ≤ max_requests), s)

/-- The stored state after a sequence of `check_rate_limit` calls at the given
timestamps, starting from an empty window. -/
def run_rate (window : ℚ) (ts : List ℚ) : Finset ℚ :=
  ts.foldl (fun s t => rate_step s t window) ∅

/-- Modelled from the spec: the orchestrator is not among the provided
sources; per §4.4 a rate-limiter deny "is itself reported to the Frequency
Tracker as a `rate_abuse` detection", so a denied request is classified
`rate_abuse` and an allowed one contributes no classification. -/
def rate_limit_classification (allowed : Bool) : Option String :=
  if allowed then none else some "rate_abuse"

/-- A timestamp that is in the initial state or among the processed timestamps,
and is never caught by the pruning range `[0, now - window]` of any call,
is in the final state. -/
theorem mem_foldl_rate_step (w : ℚ) (ts : List ℚ) (s : Finset ℚ) (x : ℚ)
    (hx : x ∈ s ∨ x ∈ ts)
    (hsurv : ∀ b ∈ ts, ¬(0 ≤ x ∧ x ≤ b - w)) :
    x ∈ ts.foldl (fun s t => rate_step s t w) s := by
  induction ts generalizing s with
  | nil =>
    simp only [List.foldl_nil]
    rcases hx with hxs | hxts
    · exact hxs
    · simp at hxts
  | cons t rest ih =>
    simp only [List.foldl_cons]
    have hsurv_t : ¬(0 ≤ x ∧ x ≤ t - w) := hsurv t (by simp)
    have hsurv_rest : ∀ b ∈ rest, ¬(0 ≤ x ∧ x ≤ b - w) := by
      intro b hb
      exact hsurv b (by simp [hb])
    rcases hx with hxs | hxts
    · exact ih (rate_step s t w)
        (Or.inl (Finset.mem_filter.mpr
          ⟨Finset.mem_insert_of_mem hxs, hsurv_t⟩)) hsurv_rest
    · rcases List.mem_cons.mp hxts with rfl | hxr
      · exact ih (rate_step s x w)
          (Or.inl (Finset.mem_filter.mpr
            ⟨Finset.mem_insert_self _ _, hsurv_t⟩)) hsurv_rest
      · exact ih (rate_step s t w) (Or.inr hxr) hsurv_rest

/-- C4: with window `60` and max `100`, if a single source issues `101`
requests (at strictly increasing timestamps, all within `60` seconds of each
other), the `101`st call of `check_rate_limit` — whose state is the result of
the first `100` calls — counts more than `100` timestamps after recording the
current one and pruning, hence returns deny, and the request is classified
`rate_abuse`. -/
theorem rate_limit_101st_denied (ts : List ℚ) (t : ℚ)
    (hlen : (ts ++ [t]).length = 101)
    (hpw : (ts ++ [t]).Pairwise (· < ·))
    (hspan : ∀ a ∈ ts ++ [t], ∀ b ∈ ts ++ [t], a - b < 60) :
    100 < ((check_rate_limit (run_rate 60 ts) t 60 100).2).card ∧
    (check_rate_limit (run_rate 60 ts) t 60 100).1 = false ∧
    rate_limit_classification (check_rate_limit (run_rate 60 ts) t 60 100).1 =
      some "rate_abuse" := by
  have hstate : (check_rate_limit (run_rate 60 ts) t 60 100).2 =
      (ts ++ [t]).foldl (fun s t => rate_step s t 60) ∅ := by
    simp [check_rate_limit, run_rate, List.foldl_append]
  have hmem : ∀ x ∈ ts ++ [t],
      x ∈ (check_rate_limit (run_rate 60 ts) t 60 100).2 := by
    intro x hx
    rw [hstate]
    apply mem_foldl_rate_step 60 (ts ++ [t]) ∅ x (Or.inr hx)
    intro b hb
    rintro ⟨-, hxb⟩
    have := hspan b hb x hx
    linarith
  have hnd : (ts ++ [t]).Nodup := hpw.imp ne_of_lt
  have hsub : (ts ++ [t]).toFinset ⊆
      (check_rate_limit (run_rate 60 ts) t 60 100).2 := by
    intro x hx
    exact hmem x (List.mem_toFinset.mp hx)
  have hcard : 100 < ((check_rate_limit (run_rate 60 ts) t 60 100).2).card := by
    have h1 : (ts ++ [t]).toFinset.card = 101 := by
      rw [List.toFinset_card_of_nodup hnd, hlen]
    have h2 := Finset.card_le_card hsub
    omega
  refine ⟨hcard, ?_, ?_⟩
  · have : ¬(((check_rate_limit (run_rate 60 ts) t 60 100).2).card ≤ 100) := by
      omega
    simp only [check_rate_limit] at hcard ⊢
    simpa using this
  · have hfalse : (check_rate_limit (run_rate 60 ts) t 60 100).1 = false := by
      have : ¬(((check_rate_limit (run_rate 60 ts) t 60 100).2).card ≤ 100) := by
        omega
      simp only [check_rate_limit] at hcard ⊢
      simpa using this
    rw [hfalse]
    rfl

/-- Witness for `rate_limit_101st_denied`: `101` requests at times
`0, 0.5, 1, …, 49.5, 50` (all within `60` seconds); the call at time `50` is
denied and classified `rate_abuse`. -/
theorem rate_limit_101st_denied_witness :
    (check_rate_limit
      (run_rate 60 ((List.range 100).map (fun i : ℕ => (i : ℚ) / 2))) 50 60 100).1 =
        false ∧
    rate_limit_classification
      (check_rate_limit
        (run_rate 60 ((List.range 100).map (fun i : ℕ => (i : ℚ) / 2))) 50 60 100).1 =
          some "rate_abuse" := by
  have hbound : ∀ x ∈ (List.range 100).map (fun i : ℕ => (i : ℚ) / 2) ++ [(50 : ℚ)],
      0 ≤ x ∧ x ≤ 50 := by
    intro x hx
    rcases List.mem_append.mp hx with hx | hx
    · obtain ⟨i, hi, rfl⟩ := List.mem_map.mp hx
      have hi' : (i : ℚ) < 100 := by exact_mod_cast List.mem_range.mp hi
      have hi0 : (0 : ℚ) ≤ (i : ℚ) := by positivity
      constructor <;> [positivity; linarith]
    · rcases List.mem_singleton.mp hx with rfl
      norm_num
  have h := rate_limit_101st_denied ((List.range 100).map (fun i : ℕ => (i : ℚ) / 2))
    50
    (by simp)
    (by
      rw [List.pairwise_append]
      refine ⟨?_, by simp, ?_⟩
      · refine (List.pairwise_lt_range 100).map _ ?_
        intro a b hab
        have : (a : ℚ) < (b : ℚ) := by exact_mod_cast hab
        linarith
      · intro a ha b hb
        rcases List.mem_singleton.mp hb with rfl
        obtain ⟨i, hi, rfl⟩ := List.mem_map.mp ha
        have hi' : (i : ℚ) < 100 := by exact_mod_cast List.mem_range.mp hi
        linarith)
    (by
      intro a ha b hb
      have h1 := hbound a ha
      have h2 := hbound b hb
      linarith)
  exact ⟨h.2.1, h.2.2⟩

/-- C9: after any `check_rate_limit` call — the update is the same whether the
call allows or denies — the stored state contains the current timestamp and
contains no timestamp at or below `now - window` (given a positive window and
the invariant that stored timestamps are nonnegative, as produced by the wall
clock). -/
theorem check_rate_limit_state_inv (s : Finset ℚ) (now window : ℚ) (m : ℕ)
    (hw : 0 < window) (hs : ∀ t ∈ s, 0 ≤ t) :
    (check_rate_limit s now window m).2 = rate_step s now window ∧
    now ∈ rate_step s now window ∧
    (∀ t ∈ rate_step s now window, now - window < t) := by
  refine ⟨rfl, ?_, ?_⟩
  · apply Finset.mem_filter.mpr
    refine ⟨Finset.mem_insert_self _ _, ?_⟩
    rintro ⟨-, hle⟩
    linarith
  · intro t ht
    obtain ⟨hmem, hkeep⟩ := Finset.mem_filter.mp ht
    rcases Finset.mem_insert.mp hmem with rfl | hts
    · linarith
    · have h0 : 0 ≤ t := hs t hts
      by_contra hle
      exact hkeep ⟨h0, by linarith⟩

/-- Witness for `check_rate_limit_state_inv`: state `{5, 100}`, a call at
time `100` with window `60` (the timestamp `5` is pruned, `100` is kept). -/
theorem check_rate_limit_state_inv_witness :
    (check_rate_limit ({5, 100} : Finset ℚ) 100 60 3).2 =
      rate_step ({5, 100} : Finset ℚ) 100 60 ∧
    (100 : ℚ) ∈ rate_step ({5, 100} : Finset ℚ) 100 60 ∧
    (∀ t ∈ rate_step ({5, 100} : Finset ℚ) 100 60, (100 : ℚ) - 60 < t) :=
  check_rate_limit_state_inv ({5, 100} : Finset ℚ) 100 60 3 (by norm_num)
    (by
      intro t ht
      rcases Finset.mem_insert.mp ht with rfl | ht
      · norm_num
      · rcases Finset.mem_singleton.mp ht with rfl
        norm_num)

/-!
## Content pattern detectors

`detect_sqli`, `detect_xss` and `detect_path_traversal` accumulate fixed
confidence increments per matching pattern and clamp the total to `1.0`.
Text is modelled as `List Char`; each regular-expression pattern of the source
is implemented as an executable matcher with `re.search` semantics (the pattern
matches at some position).  The patterns use no anchors and, where greedy
repetition appears (`[^>]*>`, `on\w+\s*=`, `eval\s*\(`, `\d+\s*=\s*\d+`),
the token after the repetition can never start with a character of the repeated
class, so a greedy scan is equivalent to backtracking search.  `.` in a pattern
does not match a newline (no DOTALL flag in the source).
-/

/-- Python `\w` on the ASCII inputs at hand: letters, digits, underscore. -/
def isWordChar (c : Char) : Bool :=
  (('a' ≤ c && c ≤ 'z') || ('A' ≤ c && c ≤ 'Z') ||
    ('0' ≤ c && c ≤ '9') || c = '_')

/-- Python `\s`: space, tab, newline, carriage return, vertical tab, form feed. -/
def isSpaceChar (c : Char) : Bool :=
  (c = ' ' || c = '\t' || c = '\n' || c = '\r' || c = '\x0b' || c = '\x0c')

/-- Python `\d`. -/
def isDigitChar (c : Char) : Bool := ('0' ≤ c && c ≤ '9')

/-- ASCII lower-casing, as applied by `re.IGNORECASE` and `.lower()` on the
ASCII texts at hand. -/
def lowerChar (c : Char) : Char :=
  if 'A' ≤ c && c ≤ 'Z' then Char.ofNat (c.toNat + 32) else c

/-- Case-insensitive literal at the head of the text, then continuation `k`
on the remainder. -/
def litCI : List Char → (List Char → Bool) → List Char → Bool
  | [], k, l => k l
  | _ :: _, _, [] => false
  | p :: ps, k, c :: cs => (lowerChar c = lowerChar p) && litCI ps k cs

/-- Case-sensitive literal at the head of the text, then continuation `k`. -/
def litCS : List Char → (List Char → Bool) → List Char → Bool
  | [], k, l => k l
  | _ :: _, _, [] => false
  | p :: ps, k, c :: cs => (c = p) && litCS ps k cs

/-- Greedy `f*` then continuation `k` (used only where the token after the
repetition cannot start with an `f`-character). -/
def starThen (f : Char → Bool) (k : List Char → Bool) : List Char → Bool
  | [] => k []
  | c :: cs => if f c then starThen f k cs else k (c :: cs)

/-- Greedy `f+` then continuation `k`. -/
def plusThen (f : Char → Bool) (k : List Char → Bool) : List Char → Bool
  | [] => false
  | c :: cs => f c && starThen f k cs

/-- `re.search`: the local check `p` succeeds at some position of the text. -/
def anywhere (p : List Char → Bool) : List Char → Bool
  | [] => p []
  | c :: cs => p (c :: cs) || anywhere p cs

/-- `.*?` then `p` within one line: `p` succeeds at some position reachable
without crossing a newline (Python `.` does not match `\n`). -/
def lineSearch (p : List Char → Bool) : List Char → Bool
  | [] => p []
  | c :: cs => p (c :: cs) || (!(c = '\n') && lineSearch p cs)

/-- Case-sensitive substring test (Python `in`). -/
def containsCS (pat : List Char) : List Char → Bool :=
  anywhere (litCS pat (fun _ => true))

/-- Case-insensitive substring test. -/
def containsCI (pat : List Char) : List Char → Bool :=
  anywhere (litCI pat (fun _ => true))

/-- The head of the text is a word boundary on the right: end of text or a
non-word character. -/
def nonWordHead : List Char → Bool
  | [] => true
  | c :: _ => !isWordChar c

/-- `\b`&nbsp;`w` with continuation `k`: the case-insensitive literal `w`
(which starts with a word character) matches at a position whose preceding
character — tracked in the accumulator — is not a word character, and `k`
accepts the remainder.  Entered with accumulator `false` (start of text is a
boundary). -/
def wbSearch (w : List Char) (k : List Char → Bool) : Bool → List Char → Bool
  | prevWord, [] => !prevWord && litCI w k []
  | prevWord, c :: cs =>
    (!prevWord && litCI w k (c :: cs)) || wbSearch w k (isWordChar c) cs

/-- `\b`&nbsp;`w` within one line, with the word-ness of the preceding
character as accumulator (for `.*\b`&nbsp;`w` tails). -/
def wbLineSearch (w : List Char) : Bool → List Char → Bool
  | prevWord, [] => !prevWord && litCI w (fun _ => true) []
  | prevWord, c :: cs =>
    (!prevWord && litCI w (fun _ => true) (c :: cs)) ||
      (!(c = '\n') && wbLineSearch w (isWordChar c) cs)

/-- A whole-word, case-insensitive keyword match:
`re.search(r'\b' + keyword + r'\b', text, re.IGNORECASE)`. -/
def wordMatch (w : List Char) (l : List Char) : Bool :=
  wbSearch w nonWordHead false l

/-- `\d+\s*=\s*\d+`. -/
def digitsEq : List Char → Bool :=
  plusThen isDigitChar (starThen isSpaceChar
    (litCS ['='] (starThen isSpaceChar (plusThen isDigitChar (fun _ => true)))))

/-- SQL pattern `(\bSELECT|INSERT|UPDATE|DELETE\b.*\bFROM|WHERE\b)` with
`re.IGNORECASE`: an alternation of `\bSELECT`, `INSERT`, `UPDATE`,
`DELETE\b.*\bFROM` and `WHERE\b`. -/
def sqlSyntax1 (l : List Char) : Bool :=
  wbSearch ("select".data) (fun _ => true) false l ||
  containsCI ("insert".data) l ||
  containsCI ("update".data) l ||
  anywhere (litCI ("delete".data)
    (fun rest => nonWordHead rest && wbLineSearch ("from".data) true rest)) l ||
  anywhere (litCI ("where".data) nonWordHead) l

/-- SQL pattern `(\bOR\b.*\d+\s*=\s*\d+)` with `re.IGNORECASE`. -/
def sqlSyntax2 (l : List Char) : Bool :=
  wbSearch ("or".data)
    (fun rest => nonWordHead rest && lineSearch digitsEq rest) false l

/-- SQL pattern `(--|#|/\*|\*/)`: a comment marker. -/
def sqlSyntax3 (l : List Char) : Bool :=
  containsCS ("--".data) l || containsCS ("#".data) l ||
  containsCS ("/*".data) l || containsCS ("*/".data) l

/-- Modelled from the spec: `calculate_entropy` (Shannon entropy of the
character frequency distribution, §4.1) is not among the provided sources.
Its only use is the comparison `entropy > 4.5`; for character counts `cᵢ`
summing to `n` that comparison is equivalent to the exact integer inequality
`2 ^ (9n) * Π cᵢ ^ (2 cᵢ) < n ^ (2n)`, which is what this flag decides. -/
def entropy_gt_threshold (l : List Char) : Bool :=
  let n := l.length
  let counts := l.dedup.map (fun c => l.count c)
  decide (2 ^ (9 * n) * (counts.map (fun c => c ^ (2 * c))).prod < n ^ (2 * n))

/-- A matched signal's contribution: its fixed weight if the pattern matched,
`0` otherwise. -/
def signal (b : Bool) (w : ℚ) : ℚ := if b then w else 0

/-- `detect_sqli(text)`: SQL keywords (`0.2` each, whole-word,
case-insensitive), the three syntactic patterns (`0.3` each), and the entropy
signal (`0.2`), clamped to `1.0`. -/
def detect_sqli (l : List Char) : ℚ :=
  let confidence : ℚ :=
    signal (wordMatch ("union".data) l) (1/5) +
    signal (wordMatch ("select".data) l) (1/5) +
    signal (wordMatch ("insert".data) l) (1/5) +
    signal (wordMatch ("drop".data) l) (1/5) +
    signal (wordMatch ("exec".data) l) (1/5) +
    signal (sqlSyntax1 l) (3/10) +
    signal (sqlSyntax2 l) (3/10) +
    signal (sqlSyntax3 l) (3/10) +
    signal (entropy_gt_threshold l) (1/5)
  min confidence 1

/-- XSS pattern `<script[^>]*>.*?</script>` (`re.IGNORECASE`). -/
def xssScriptTag : List Char → Bool :=
  anywhere (litCI ("<script".data)
    (starThen (fun c => !(c = '>'))
      (litCS ['>'] (lineSearch (litCI ("</script>".data) (fun _ => true))))))

/-- XSS pattern `on\w+\s*=` (`re.IGNORECASE`). -/
def xssEventHandler : List Char → Bool :=
  anywhere (litCI ("on".data)
    (plusThen isWordChar (starThen isSpaceChar (litCS ['='] (fun _ => true)))))

/-- XSS pattern `<iframe[^>]*>` (`re.IGNORECASE`). -/
def xssIframeTag : List Char → Bool :=
  anywhere (litCI ("<iframe".data)
    (starThen (fun c => !(c = '>')) (litCS ['>'] (fun _ => true))))

/-- XSS pattern `eval\s*\(` (`re.IGNORECASE`). -/
def xssEvalCall : List Char → Bool :=
  anywhere (litCI ("eval".data)
    (starThen isSpaceChar (litCS ['('] (fun _ => true))))

/-- The number of distinct HTML-entity evasion markers
(`"&lt;", "&gt;", "&#x", "&#"`) present in the text (Python
`sum(1 for entity in entities if entity in text)`). -/
def entity_count (l : List Char) : ℕ :=
  (if containsCS ("&lt;".data) l then 1 else 0) +
  (if containsCS ("&gt;".data) l then 1 else 0) +
  (if containsCS ("&#x".data) l then 1 else 0) +
  (if containsCS ("&#".data) l then 1 else 0)

/-- `detect_xss(text)`: the seven structural patterns (`0.25` each,
case-insensitive) plus `0.1` when more than two distinct HTML-entity markers
are present, clamped to `1.0`. -/
def detect_xss (l : List Char) : ℚ :=
  let confidence : ℚ :=
    signal (xssScriptTag l) (1/4) +
    signal (containsCI ("javascript:".data) l) (1/4) +
    signal (containsCI ("vbscript:".data) l) (1/4) +
    signal (xssEventHandler l) (1/4) +
    signal (xssIframeTag l) (1/4) +
    signal (xssEvalCall l) (1/4) +
    signal (containsCI ("document.cookie".data) l) (1/4) +
    signal (2 < entity_count l) (1/10)
  min confidence 1

/-- `detect_path_traversal(path)`: the four traversal patterns
(`\.\./`, `\.\.\\`, `%2e%2e%2f`, `\.\.%2f` — matched case-sensitively, no
`re.IGNORECASE` flag; `0.4` each) and the four sensitive-file substrings
(compared on the lower-cased path — case-insensitively; `0.5` each),
clamped to `1.0`. -/
def detect_path_traversal (l : List Char) : ℚ :=
  let lower := l.map lowerChar
  let confidence : ℚ :=
    signal (containsCS ("../".data) l) (2/5) +
    signal (containsCS ("..\\".data) l) (2/5) +
    signal (containsCS ("%2e%2e%2f".data) l) (2/5) +
    signal (containsCS ("..%2f".data) l) (2/5) +
    signal (containsCS ("/etc/passwd".data) lower) (1/2) +
    signal (containsCS ("/etc/shadow".data) lower) (1/2) +
    signal (containsCS ("/windows/system32".data) lower) (1/2) +
    signal (containsCS ("web.config".data) lower) (1/2)
  min confidence 1

/-- Modelled from the spec: the inspection orchestrator is not among the
provided sources; per §4.6 step 3 it selects "the highest-confidence non-zero
result as the primary classification (ties broken by fixed family priority:
sqli > xss > path_traversal ...)". -/
def classify_content (l : List Char) : Option String :=
  let s := detect_sqli l
  let x := detect_xss l
  let p := detect_path_traversal l
  if s = 0 ∧ x = 0 ∧ p = 0 then none
  else if x ≤ s ∧ p ≤ s then some "sqli"
  else if p ≤ x then some "xss"
  else some "path_traversal"

theorem signal_nonneg (b : Bool) (w : ℚ) (hw : 0 ≤ w) : 0 ≤ signal b w := by
  cases b <;> simp [signal, hw]

/-- A clamped additive-confidence total built from nonnegative increments lies
in `[0, 1]`. -/
theorem clamped_range (x : ℚ) (hx : 0 ≤ x) : 0 ≤ min x 1 ∧ min x 1 ≤ 1 :=
  ⟨le_min hx zero_le_one, min_le_right _ _⟩

/-- C5: every content detector returns a confidence in `[0, 1]` on every input
text — the accumulated sum of nonnegative fixed increments is clamped to `1.0`. -/
theorem detector_confidence_range (l : List Char) :
    (0 ≤ detect_sqli l ∧ detect_sqli l ≤ 1) ∧
    (0 ≤ detect_xss l ∧ detect_xss l ≤ 1) ∧
    (0 ≤ detect_path_traversal l ∧ detect_path_traversal l ≤ 1) := by
  refine ⟨?_, ?_, ?_⟩
  · unfold detect_sqli
    apply clamped_range
    repeat' apply add_nonneg
    all_goals exact signal_nonneg _ _ (by norm_num)
  · unfold detect_xss
    apply clamped_range
    repeat' apply add_nonneg
    all_goals exact signal_nonneg _ _ (by norm_num)
  · unfold detect_path_traversal
    apply clamped_range
    repeat' apply add_nonneg
    all_goals exact signal_nonneg _ _ (by norm_num)

/-- C10: the traversal-sequence patterns are matched case-sensitively while the
sensitive-file substrings are compared on the lower-cased path: the purely
upper-case percent-encoded traversal `"%2E%2E%2F"` scores `0`, its lower-case
form `"%2e%2e%2f"` scores `0.4`, and the upper-case sensitive path
`"/ETC/PASSWD"` still scores `0.5`. -/
theorem detect_path_traversal_case_sensitivity :
    detect_path_traversal ("%2E%2E%2F".data) = 0 ∧
    detect_path_traversal ("%2e%2e%2f".data) = 2/5 ∧
    detect_path_traversal ("/ETC/PASSWD".data) = 1/2 := by
  refine ⟨?_, ?_, ?_⟩ <;> norm_num +decide [detect_path_traversal, signal, min_def]

/-- C3 counterexample: on `"<script>alert(document.cookie)</script>"` exactly
two of the seven XSS patterns match (the script tag and `document\.cookie`,
`0.25` each), so `detect_xss` returns `0.5` — not `≥ 0.75` as claimed. -/
theorem detect_xss_script_cookie_cex :
    detect_xss ("<script>alert(document.cookie)</script>".data) = 1/2 ∧
    ¬(3/4 ≤ detect_xss ("<script>alert(document.cookie)</script>".data)) := by
  have h : detect_xss ("<script>alert(document.cookie)</script>".data) = 1/2 := by
    norm_num +decide [detect_xss, signal, min_def]
  refine ⟨h, ?_⟩
  rw [h]
  norm_num

/-- C3 amended: on `"<script>alert(document.cookie)</script>"` the XSS
detector returns confidence exactly `0.5` (script-tag pattern plus
cookie-access pattern, `0.25` each), and — with the SQLi and path-traversal
detectors both scoring `0` — the request is classified `xss`. -/
theorem detect_xss_script_cookie_classified :
    detect_xss ("<script>alert(document.cookie)</script>".data) = 1/2 ∧
    classify_content ("<script>alert(document.cookie)</script>".data) =
      some "xss" := by
  have hs : detect_sqli ("<script>alert(document.cookie)</script>".data) = 0 := by
    norm_num +decide [detect_sqli, signal, min_def]
  have hx : detect_xss ("<script>alert(document.cookie)</script>".data) = 1/2 := by
    norm_num +decide [detect_xss, signal, min_def]
  have hp : detect_path_traversal
      ("<script>alert(document.cookie)</script>".data) = 0 := by
    norm_num +decide [detect_path_traversal, signal, min_def]
  refine ⟨hx, ?_⟩
  unfold classify_content
  rw [hs, hx, hp]
  norm_num

/-- C7 counterexample: `"drop"` and `"exec"` each match an SQL keyword on
their own (`detect_sqli = 0.2`), but extending `"drop"` with the additional
matching occurrence `"exec"` merges the two words: in `"dropexec"` neither
keyword has its word boundaries, and `detect_sqli` drops to `0`. -/
theorem detect_sqli_append_decreases_cex :
    detect_sqli ("drop".data) = 1/5 ∧
    detect_sqli ("exec".data) = 1/5 ∧
    "dropexec".data = "drop".data ++ "exec".data ∧
    detect_sqli ("dropexec".data) = 0 := by
  have h1 : detect_sqli ("drop".data) = 1/5 := by
    norm_num +decide [detect_sqli, signal, min_def]
  have h2 : detect_sqli ("exec".data) = 1/5 := by
    norm_num +decide [detect_sqli, signal, min_def]
  have h3 : detect_sqli ("dropexec".data) = 0 := by
    norm_num +decide [detect_sqli, signal, min_def]
  exact ⟨h1, h2, by decide, h3⟩

/-!
### Extension monotonicity of the anchored-free matchers

For the XSS and path-traversal patterns a match at some position of `l` is
still a match at the same position of `l ++ t`: the matchers are existential
over positions, have no anchors and no word boundaries, and every greedy
repetition inside them is followed by a mandatory literal character, so a
successful local check consumes only characters of `l` that appending `t`
does not change. -/

/-- A matcher is extension-monotone when a match survives appending text. -/
def ExtMono (p : List Char → Bool) : Prop :=
  ∀ l t : List Char, p l = true → p (l ++ t) = true

theorem extMono_const_true : ExtMono (fun _ => true) := fun _ _ _ => rfl

theorem litCI_extMono (pat : List Char) (k : List Char → Bool) (hk : ExtMono k) :
    ExtMono (litCI pat k) := by
  intro l t
  induction pat generalizing l with
  | nil => exact hk l t
  | cons p ps ih =>
    intro h
    cases l with
    | nil => simp [litCI] at h
    | cons c cs =>
      simp only [litCI, Bool.and_eq_true] at h ⊢
      exact ⟨h.1, ih cs h.2⟩

theorem litCS_extMono (pat : List Char) (k : List Char → Bool) (hk : ExtMono k) :
    ExtMono (litCS pat k) := by
  intro l t
  induction pat generalizing l with
  | nil => exact hk l t
  | cons p ps ih =>
    intro h
    cases l with
    | nil => simp [litCS] at h
    | cons c cs =>
      simp only [litCS, Bool.and_eq_true] at h ⊢
      exact ⟨h.1, ih cs h.2⟩

theorem starThen_extMono (f : Char → Bool) (k : List Char → Bool)
    (hk : ExtMono k) (hk0 : k [] = false) : ExtMono (starThen f k) := by
  intro l t
  induction l with
  | nil =>
    intro h
    simp [starThen, hk0] at h
  | cons c cs ih =>
    intro h
    simp only [starThen, List.cons_append] at h ⊢
    by_cases hf : f c
    · rw [if_pos hf] at h ⊢
      exact ih h
    · rw [if_neg hf] at h ⊢
      exact hk _ t h

theorem plusThen_extMono (f : Char → Bool) (k : List Char → Bool)
    (hk : ExtMono k) (hk0 : k [] = false) : ExtMono (plusThen f k) := by
  intro l t h
  cases l with
  | nil => simp [plusThen] at h
  | cons c cs =>
    simp only [plusThen, List.cons_append, Bool.and_eq_true] at h ⊢
    exact ⟨h.1, starThen_extMono f k hk hk0 cs t h.2⟩

theorem anywhere_of_here (p : List Char → Bool) (l : List Char)
    (h : p l = true) : anywhere p l = true := by
  cases l with
  | nil => exact h
  | cons c cs => simp [anywhere, h]

theorem anywhere_extMono (p : List Char → Bool) (hp : ExtMono p) :
    ExtMono (anywhere p) := by
  intro l t
  induction l with
  | nil =>
    intro h
    exact anywhere_of_here p t (hp [] t h)
  | cons c cs ih =>
    intro h
    simp only [anywhere, List.cons_append, Bool.or_eq_true] at h ⊢
    rcases h with h | h
    · exact Or.inl (hp _ t h)
    · exact Or.inr (ih h)

theorem lineSearch_of_here (p : List Char → Bool) (l : List Char)
    (h : p l = true) : lineSearch p l = true := by
  cases l with
  | nil => exact h
  | cons c cs => simp [lineSearch, h]

theorem lineSearch_extMono (p : List Char → Bool) (hp : ExtMono p) :
    ExtMono (lineSearch p) := by
  intro l t
  induction l with
  | nil =>
    intro h
    exact lineSearch_of_here p t (hp [] t h)
  | cons c cs ih =>
    intro h
    simp only [lineSearch, List.cons_append, Bool.or_eq_true,
      Bool.and_eq_true] at h ⊢
    rcases h with h | ⟨hnl, h⟩
    · exact Or.inl (hp _ t h)
    · exact Or.inr ⟨hnl, ih h⟩

theorem containsCS_extMono (pat : List Char) : ExtMono (containsCS pat) :=
  anywhere_extMono _ (litCS_extMono pat _ extMono_const_true)

theorem containsCI_extMono (pat : List Char) : ExtMono (containsCI pat) :=
  anywhere_extMono _ (litCI_extMono pat _ extMono_const_true)

theorem xssScriptTag_extMono : ExtMono xssScriptTag :=
  anywhere_extMono _ (litCI_extMono _ _ (starThen_extMono _ _
    (litCS_extMono _ _ (lineSearch_extMono _
      (litCI_extMono _ _ extMono_const_true))) rfl))

theorem xssEventHandler_extMono : ExtMono xssEventHandler :=
  anywhere_extMono _ (litCI_extMono _ _ (plusThen_extMono _ _
    (starThen_extMono _ _ (litCS_extMono _ _ extMono_const_true) rfl) rfl))

theorem xssIframeTag_extMono : ExtMono xssIframeTag :=
  anywhere_extMono _ (litCI_extMono _ _ (starThen_extMono _ _
    (litCS_extMono _ _ extMono_const_true) rfl))

theorem xssEvalCall_extMono : ExtMono xssEvalCall :=
  anywhere_extMono _ (litCI_extMono _ _ (starThen_extMono _ _
    (litCS_extMono _ _ extMono_const_true) rfl))

theorem signal_mono (a b : Bool) (w : ℚ) (hw : 0 ≤ w)
    (h : a = true → b = true) : signal a w ≤ signal b w := by
  cases a with
  | false =>
    have := signal_nonneg b w hw
    simpa [signal] using this
  | true => rw [h rfl]

theorem entity_count_mono (l t : List Char) :
    entity_count l ≤ entity_count (l ++ t) := by
  unfold entity_count
  have step : ∀ pat : List Char,
      (if containsCS pat l then 1 else 0) ≤
        (if containsCS pat (l ++ t) then (1 : ℕ) else 0) := by
    intro pat
    by_cases h : containsCS pat l = true
    · rw [if_pos h, if_pos (containsCS_extMono pat l t h)]
    · simp only [Bool.not_eq_true] at h
      rw [h]
      simp
  have h1 := step ("&lt;".data)
  have h2 := step ("&gt;".data)
  have h3 := step ("&#x".data)
  have h4 := step ("&#".data)
  omega

/-- C7 amended: for `detect_xss` and `detect_path_traversal` — whose patterns
are all anchor-free substring or structural matches — extending the input text
in any way (in particular by an additional occurrence of a matching pattern)
never decreases the confidence.  For `detect_sqli` the property fails: a
keyword occurrence appended directly after a word character loses its word
boundary, and the entropy signal can also be lost as text grows (see the
counterexample `"drop" ++ "exec"`). -/
theorem detect_append_monotone (s t : List Char) :
    detect_xss s ≤ detect_xss (s ++ t) ∧
    detect_path_traversal s ≤ detect_path_traversal (s ++ t) := by
  constructor
  · unfold detect_xss
    apply min_le_min _ le_rfl
    have h1 := signal_mono _ _ (1/4 : ℚ) (by norm_num) (xssScriptTag_extMono s t)
    have h2 := signal_mono _ _ (1/4 : ℚ) (by norm_num)
      (containsCI_extMono ("javascript:".data) s t)
    have h3 := signal_mono _ _ (1/4 : ℚ) (by norm_num)
      (containsCI_extMono ("vbscript:".data) s t)
    have h4 := signal_mono _ _ (1/4 : ℚ) (by norm_num) (xssEventHandler_extMono s t)
    have h5 := signal_mono _ _ (1/4 : ℚ) (by norm_num) (xssIframeTag_extMono s t)
    have h6 := signal_mono _ _ (1/4 : ℚ) (by norm_num) (xssEvalCall_extMono s t)
    have h7 := signal_mono _ _ (1/4 : ℚ) (by norm_num)
      (containsCI_extMono ("document.cookie".data) s t)
    have h8 : signal (2 < entity_count s) (1/10) ≤
        signal (2 < entity_count (s ++ t)) (1/10) := by
      apply signal_mono _ _ _ (by norm_num)
      intro h
      have hlt := of_decide_eq_true h
      exact decide_eq_true (lt_of_lt_of_le hlt (entity_count_mono s t))
    linarith
  · unfold detect_path_traversal
    have hmap : (s ++ t).map lowerChar = s.map lowerChar ++ t.map lowerChar :=
      List.map_append lowerChar s t
    rw [hmap]
    apply min_le_min _ le_rfl
    have step : ∀ (pat u v : List Char) (w : ℚ), 0 ≤ w →
        signal (containsCS pat u) w ≤ signal (containsCS pat (u ++ v)) w :=
      fun pat u v w hw => signal_mono _ _ w hw (containsCS_extMono pat u v)
    have h1 := step ("../".data) s t (2/5) (by norm_num)
    have h2 := step ("..\\".data) s t (2/5) (by norm_num)
    have h3 := step ("%2e%2e%2f".data) s t (2/5) (by norm_num)
    have h4 := step ("..%2f".data) s t (2/5) (by norm_num)
    have h5 := step ("/etc/passwd".data) (s.map lowerChar) (t.map lowerChar)
      (1/2) (by norm_num)
    have h6 := step ("/etc/shadow".data) (s.map lowerChar) (t.map lowerChar)
      (1/2) (by norm_num)
    have h7 := step ("/windows/system32".data) (s.map lowerChar)
      (t.map lowerChar) (1/2) (by norm_num)
    have h8 := step ("web.config".data) (s.map lowerChar) (t.map lowerChar)
      (1/2) (by norm_num)
    linarith

end SentinelX
